import Mathlib

/-!
Shallow embedding of the storage-and-search engine of mcp-storage-server:
the `StorageDatabase` class (its `store`, `storeBatch`, `retrieve`, `search`,
`searchAdvanced`, `list`, `delete` methods and the SQL schema plus triggers
set up by `initializeTables`), the `getTags` method of the variant of the
class kept under `src/database.ts`, and the thin zod-validation layer of the
`store_item` / `store_batch` tool handlers in `src/index.ts`.

Modelling conventions, each checked against the documented semantics of
SQLite (and observed on SQLite 3.40) for the exact schema the code creates:

* Timestamps are natural numbers standing in for the ISO-8601 strings
  produced by `new Date().toISOString()`; ISO strings compare
  lexicographically exactly as the represented instants compare, so the SQL
  comparisons and ORDER BY on `updated_at` become `Nat` comparisons.
* The `storage` table is a list of (rowid, row) pairs kept in ascending
  rowid order.  SQLite assigns rowid `max existing rowid + 1` to every
  INSERT; `INSERT OR REPLACE` removes the conflicting row (same `id`) and
  inserts a fresh row under a fresh rowid computed from the pre-statement
  table.
* `storage_fts` is an fts5 table with `content='storage'` (external
  content): it stores index entries keyed by its own rowid, recording the
  column values supplied when the entry was created, while reads of its
  columns go back to the `storage` table by rowid.  Three SQLite behaviours
  are part of the model:
  - the AFTER INSERT trigger `storage_ai` fires on every INSERT, including
    the insert half of `INSERT OR REPLACE`, and appends an index entry
    under the next free fts rowid;
  - the AFTER DELETE trigger `storage_ad` does not fire for rows removed by
    OR REPLACE conflict resolution, because `PRAGMA recursive_triggers`
    defaults to off and the code never enables it;
  - when `storage_ad` does fire (a plain DELETE), its body
    `DELETE FROM storage_fts WHERE id = old.id` reads the `id` column of
    the external-content fts table from the `storage` table by rowid; the
    deleted row is already gone when the AFTER trigger runs, so the
    condition can only hold for an fts rowid at which some remaining
    storage row carries the deleted id.
* Full-text MATCH is modelled for single-term queries: a term matches an
  index entry when it occurs as a whitespace-separated token of the
  recorded title, content or tags.  bm25 ranking is abstracted as index
  order; no statement below depends on the ranking.  When the match set
  contains an index entry whose rowid has no storage row behind it, the
  query aborts with the SQLite error "database disk image is malformed"
  (observed behaviour of fts5 external-content tables whose index has
  diverged from the content table).
* In `searchAdvanced`, a non-empty tag filter makes the generated SQL refer
  to the unqualified column name `tags`, which exists in both `storage` and
  `storage_fts`; SQLite rejects such a statement at prepare time with
  "ambiguous column name: tags", before anything runs.
-/

/-- A row of the `storage` table, and also the record value the TypeScript
methods return (`interface StoredItem`).  `tags` is the comma-joined blob
the code stores. -/
structure StoredItem where
  id : String
  title : String
  content : String
  tags : String
  created_at : Nat
  updated_at : Nat
deriving DecidableEq, Repr

/-- One entry of the `storage_fts` index: the fts rowid it is keyed on and
the column values recorded when the entry was created by the insert
trigger. -/
structure FtsEntry where
  rowid : Nat
  id : String
  title : String
  content : String
  tags : String
deriving DecidableEq, Repr

/-- The persistent state created by `initializeTables`: the `storage` table
in ascending rowid order and the `storage_fts` index. -/
structure StorageDatabase where
  storage : List (Nat × StoredItem)
  storage_fts : List FtsEntry
deriving DecidableEq, Repr

/-- A freshly initialised, empty database. -/
def emptyDb : StorageDatabase := ⟨[], []⟩

/-- Largest rowid present in the `storage` table (0 when empty); SQLite
assigns `maxRowid + 1` to the next INSERT. -/
def maxRowid (l : List (Nat × StoredItem)) : Nat :=
  l.foldr (fun p m => max p.1 m) 0

/-- Largest rowid present in the fts index (0 when empty). -/
def maxFtsRowid (l : List FtsEntry) : Nat :=
  l.foldr (fun e m => max e.rowid m) 0

/-- JavaScript `Array.prototype.join(',')`, used by `store` and `storeBatch`
to serialize the tag list. -/
def joinComma : List String → String
  | [] => ""
  | [t] => t
  | t :: ts => t ++ "," ++ joinComma ts

/-- Character-level split on a separator, the semantics of JavaScript
`String.prototype.split(sep)` for a one-character separator: splitting the
empty string yields one empty part. -/
def splitChar (sep : Char) : List Char → List (List Char)
  | [] => [[]]
  | c :: cs =>
    match splitChar sep cs with
    | [] => [[]]
    | h :: t => if c = sep then [] :: h :: t else (c :: h) :: t

/-- JavaScript `String.prototype.trim()` at the character level. -/
def trimChars (l : List Char) : List Char :=
  ((l.dropWhile Char.isWhitespace).reverse.dropWhile Char.isWhitespace).reverse

/-- Decode of the serialized tag blob, as `getTags` performs it:
`split(',')`, trim each part, drop empties. -/
def tagList (s : String) : List String :=
  ((splitChar ',' s.data).map (fun l => String.mk (trimChars l))).filter
    (fun t => t != "")

/-- The `created_at` value chosen by
`COALESCE((SELECT created_at FROM storage WHERE id = ?), now)`:
carried over from an existing row, otherwise `now`. -/
def coalesceCreated (db : StorageDatabase) (id : String) (now : Nat) : Nat :=
  match db.storage.find? (fun p => p.2.id == id) with
  | some p => p.2.created_at
  | none => now

/-- The `INSERT OR REPLACE` statement shared by `store` and `storeBatch`,
together with its effect on the fts index: the conflicting row (if any) is
removed without firing the delete trigger (recursive triggers are off), the
new row is appended under a fresh rowid, and the insert trigger appends an
index entry recording the inserted values under a fresh fts rowid. -/
def upsert (db : StorageDatabase) (id title content tagsStr : String)
    (now : Nat) : StorageDatabase :=
  let created := coalesceCreated db id now
  let newRowid := maxRowid db.storage + 1
  { storage := db.storage.filter (fun p => !(p.2.id == id)) ++
      [(newRowid, ⟨id, title, content, tagsStr, created, now⟩)],
    storage_fts := db.storage_fts ++
      [⟨maxFtsRowid db.storage_fts + 1, id, title, content, tagsStr⟩] }

/-- `store`: the upsert plus the record the method returns.  Note the
returned record carries the literal `now` in both timestamp fields,
regardless of what the COALESCE wrote into the row. -/
def store (db : StorageDatabase) (id title content : String)
    (tags : List String) (now : Nat) : StorageDatabase × StoredItem :=
  let tagsStr := joinComma tags
  (upsert db id title content tagsStr now,
   ⟨id, title, content, tagsStr, now, now⟩)

/-- An element of the `items` argument of `storeBatch` (tags optional). -/
structure BatchItem where
  id : String
  title : String
  content : String
  tags : Option (List String)
deriving DecidableEq, Repr

/-- `storeBatch`: one transaction running the same `INSERT OR REPLACE` for
every item, all sharing a single `now` timestamp.  No statement in the loop
can fail, so the transaction always commits; the rollback-on-throw
behaviour of the transaction wrapper is unreachable from this entry
point. -/
def storeBatch (db : StorageDatabase) (items : List BatchItem) (now : Nat) :
    StorageDatabase × List StoredItem :=
  (items.foldl (fun acc it =>
      upsert acc it.id it.title it.content (joinComma (it.tags.getD [])) now) db,
   items.map (fun it =>
      ⟨it.id, it.title, it.content, joinComma (it.tags.getD []), now, now⟩))

/-- `retrieve`: `SELECT * FROM storage WHERE id = ?`, `null` when absent. -/
def retrieve (db : StorageDatabase) (id : String) : Option StoredItem :=
  (db.storage.find? (fun p => p.2.id == id)).map (fun p => p.2)

/-- Effect of the AFTER DELETE trigger `storage_ad` on the fts index, given
the post-delete `storage` table: its body
`DELETE FROM storage_fts WHERE id = old.id` reads the `id` column of the
external-content fts table back from `storage` by rowid, so an fts entry is
removed only if some remaining storage row sits at its rowid and carries
the deleted id. -/
def storage_ad (storagePost : List (Nat × StoredItem)) (fts : List FtsEntry)
    (oldId : String) : List FtsEntry :=
  fts.filter (fun e =>
    !(match storagePost.find? (fun p => p.1 == e.rowid) with
      | some p => p.2.id == oldId
      | none => false))

/-- `delete`: `DELETE FROM storage WHERE id = ?`, firing `storage_ad` for
the deleted row, result `changes > 0`. -/
def delete (db : StorageDatabase) (id : String) : StorageDatabase × Bool :=
  let existed := db.storage.any (fun p => p.2.id == id)
  let storagePost := db.storage.filter (fun p => !(p.2.id == id))
  ({ storage := storagePost,
     storage_fts := if existed then storage_ad storagePost db.storage_fts id
                    else db.storage_fts },
   existed)

/-- Whitespace tokenization standing in for the fts5 unicode61 tokenizer
(adequate for the space-separated ASCII documents used below). -/
def ftsTokens (s : String) : List String :=
  ((splitChar ' ' s.data).map String.mk).filter (fun t => t != "")

/-- Match of a single-term query against one index entry: the term occurs
as a token of the recorded title, content or tags. -/
def ftsMatch (q : String) (e : FtsEntry) : Bool :=
  (ftsTokens e.title).contains q || (ftsTokens e.content).contains q ||
    (ftsTokens e.tags).contains q

/-- `search`: storage rows joined to the matching index entries by rowid
(the `id` join condition of the SQL is equivalent, because the `id` column
of the external-content fts table is itself read from `storage` by rowid
and `id` is the primary key), bm25 order abstracted as index order, LIMIT
applied last.  If any matching index entry has no storage row behind its
rowid, the query aborts with the fts5 corruption error. -/
def search (db : StorageDatabase) (q : String) (limit : Nat) :
    Except String (List StoredItem) :=
  let matched := db.storage_fts.filter (ftsMatch q)
  if matched.all (fun e => db.storage.any (fun p => p.1 == e.rowid)) then
    Except.ok ((matched.filterMap (fun e =>
      (db.storage.find? (fun p => p.1 == e.rowid)).map (fun p => p.2))).take limit)
  else
    Except.error "database disk image is malformed"

/-- Date-range condition of `searchAdvanced` on a materialized row. -/
def dateInRange (dateFrom dateTo : Option Nat) (r : StoredItem) : Bool :=
  (match dateFrom with
   | some d => decide (d ≤ r.updated_at)
   | none => true) &&
  (match dateTo with
   | some d => decide (r.updated_at ≤ d)
   | none => true)

/-- `searchAdvanced`.  With a non-empty `tags` argument the generated SQL
appends `AND (tags LIKE ? OR ...)`; the unqualified column name `tags`
exists in both joined tables, so SQLite rejects the statement at prepare
time with "ambiguous column name: tags" and nothing runs.  Otherwise the
query behaves like `search` with the optional `updated_at` range bounds,
both filters applied before LIMIT. -/
def searchAdvanced (db : StorageDatabase) (q : String) (limit : Nat)
    (tags : Option (List String)) (dateFrom dateTo : Option Nat) :
    Except String (List StoredItem) :=
  if (tags.getD []).length > 0 then
    Except.error "ambiguous column name: tags"
  else
    let matched := db.storage_fts.filter (ftsMatch q)
    if matched.all (fun e => db.storage.any (fun p => p.1 == e.rowid)) then
      Except.ok (((matched.filterMap (fun e =>
        (db.storage.find? (fun p => p.1 == e.rowid)).map (fun p => p.2))).filter
          (dateInRange dateFrom dateTo)).take limit)
    else
      Except.error "database disk image is malformed"

/-- The comparison `ORDER BY updated_at DESC` sorts by.  SQL leaves the
relative order of equal keys open; the model refines it to a stable sort,
which keeps rows with equal `updated_at` in rowid order. -/
def sortByUpdatedDesc (l : List (Nat × StoredItem)) : List (Nat × StoredItem) :=
  l.mergeSort (fun a b => decide (b.2.updated_at ≤ a.2.updated_at))

/-- `list`: `SELECT * FROM storage ORDER BY updated_at DESC LIMIT ? OFFSET ?`. -/
def list (db : StorageDatabase) (limit offset : Nat) : List StoredItem :=
  (((sortByUpdatedDesc db.storage).drop offset).take limit).map (fun p => p.2)

/-- `getTags` (from the `src/database.ts` variant of the class): distinct
non-empty tag blobs, each split on commas, trimmed, empties dropped,
deduplicated into a set and sorted. -/
def getTags (db : StorageDatabase) : List String :=
  (((((db.storage.map (fun p => p.2.tags)).filter (fun t => t != "")).dedup).flatMap
      tagList).dedup).mergeSort (fun a b => decide (a ≤ b))

/-- The raw arguments of the `store_item` tool (and of one element of the
`store_batch` items array) before zod validation: each required field is
either present with a string value or effectively absent (missing or of a
wrong JSON type).  `z.string()` performs no emptiness check. -/
structure RawStoreArgs where
  id : Option String
  title : Option String
  content : Option String
  tags : Option (List String)
deriving DecidableEq, Repr

/-- `StoreItemSchema.parse`: succeeds exactly when the three required
fields are present. -/
def parseStoreArgs (a : RawStoreArgs) :
    Option (String × String × String × Option (List String)) :=
  match a.id, a.title, a.content with
  | some i, some t, some c => some (i, t, c, a.tags)
  | _, _, _ => none

/-- The `store_item` tool handler: parse, then `db.store(id, title,
content, tags || [])`; a zod failure is caught and reported as an error
response without touching the database.  The Bool is the isError flag. -/
def storeItemTool (db : StorageDatabase) (a : RawStoreArgs) (now : Nat) :
    StorageDatabase × Bool :=
  match parseStoreArgs a with
  | none => (db, true)
  | some (i, t, c, tg) => ((store db i t c (tg.getD []) now).1, false)

/-- `StoreBatchSchema.parse` over the items array: succeeds exactly when
every item has its three required fields. -/
def parseBatchArgs (raws : List RawStoreArgs) : Option (List BatchItem) :=
  raws.mapM (fun a => (parseStoreArgs a).map
    (fun p => ⟨p.1, p.2.1, p.2.2.1, p.2.2.2⟩))

/-- The `store_batch` tool handler: parse all items, then `db.storeBatch`;
a zod failure on any item is caught and reported as an error response
without touching the database. -/
def storeBatchTool (db : StorageDatabase) (raws : List RawStoreArgs)
    (now : Nat) : StorageDatabase × Bool :=
  match parseBatchArgs raws with
  | none => (db, true)
  | some items => ((storeBatch db items now).1, false)

/-- The read-only entry points: `retrieve`, `search`, `searchAdvanced`,
`list` and `getTags`. -/
inductive ReadOp where
  | retrieveOp (id : String)
  | searchOp (q : String) (limit : Nat)
  | searchAdvancedOp (q : String) (limit : Nat) (tags : Option (List String))
      (dateFrom dateTo : Option Nat)
  | listOp (limit offset : Nat)
  | getTagsOp
deriving DecidableEq, Repr

/-- The response of a read-only entry point, error responses included. -/
inductive ReadResult where
  | item : Option StoredItem → ReadResult
  | rows : List StoredItem → ReadResult
  | tagNames : List String → ReadResult
  | failure : String → ReadResult
deriving DecidableEq, Repr

/-- Threads the database state through a read operation so the frame
property is statable: each of these methods only prepares and runs SELECT
statements, so the state comes back as received, also on the two error
paths (prepare failure and fts corruption error). -/
def runRead (op : ReadOp) (db : StorageDatabase) :
    StorageDatabase × ReadResult :=
  match op with
  | .retrieveOp id => (db, .item (retrieve db id))
  | .searchOp q l =>
      (db, match search db q l with
           | .ok rs => .rows rs
           | .error e => .failure e)
  | .searchAdvancedOp q l tg df dt =>
      (db, match searchAdvanced db q l tg df dt with
           | .ok rs => .rows rs
           | .error e => .failure e)
  | .listOp l o => (db, .rows (list db l o))
  | .getTagsOp => (db, .tagNames (getTags db))

/-! ## Helper lemmas -/

/-- Nothing satisfying `p` survives filtering by the negation of `p`. -/
theorem find?_filter_neg {α : Type} (l : List α) (p : α → Bool) :
    (l.filter (fun a => !(p a))).find? p = none := by
  rw [List.find?_eq_none]
  intro x hx
  have hmem := List.of_mem_filter hx
  simp only [Bool.not_eq_true'] at hmem
  simp [hmem]

/-- `retrieve` right after an upsert returns the row the upsert wrote. -/
theorem retrieve_upsert (db : StorageDatabase) (id title content tagsStr : String)
    (now : Nat) :
    retrieve (upsert db id title content tagsStr now) id =
      some ⟨id, title, content, tagsStr, coalesceCreated db id now, now⟩ := by
  unfold retrieve upsert
  rw [List.find?_append, find?_filter_neg]
  simp

/-- `coalesceCreated` in terms of `retrieve`. -/
theorem coalesceCreated_eq (db : StorageDatabase) (id : String) (now : Nat) :
    coalesceCreated db id now =
      match retrieve db id with
      | some r => r.created_at
      | none => now := by
  unfold coalesceCreated retrieve
  cases db.storage.find? (fun p => p.2.id == id) <;> rfl

/-- The delete trigger never removes an index entry: every storage row
still carrying the deleted id was just removed from the table the trigger
reads the fts `id` column from. -/
theorem storage_ad_noop (l : List (Nat × StoredItem)) (fts : List FtsEntry)
    (id : String) :
    storage_ad (l.filter (fun p => !(p.2.id == id))) fts id = fts := by
  unfold storage_ad
  rw [List.filter_eq_self]
  intro e _
  cases hf : (l.filter (fun p => !(p.2.id == id))).find? (fun p => p.1 == e.rowid) with
  | none => simp
  | some p =>
    have hmem := List.of_mem_filter (List.mem_of_find?_eq_some hf)
    simp only [Bool.not_eq_true'] at hmem
    simp [hmem]

/-! ## Claim C10 -/

/-- Claim C10: the read operations `retrieve`, `search`, `searchAdvanced`,
`list` and `getTags` do not modify the item table or the search index; the
state after any such call, error-reporting calls included, equals the state
before the call. -/
theorem c10_reads_pure (op : ReadOp) (db : StorageDatabase) :
    (runRead op db).1 = db := by
  cases op <;> rfl

/-! ## Claim C1 -/

/-- Claim C1 (code-bug evaluation): the spec invariant that a search-index
entry exists for an id exactly when an item row does, with identical field
values, fully replaced on re-`store` and removed on `delete`, is violated
by the code.  Re-storing id `x` leaves two index entries for `x` — the
stale one still carrying the old title — because `INSERT OR REPLACE`
suppresses the delete trigger; deleting `x` then removes the row but
neither index entry, because the delete trigger reads the `id` column of
the external-content fts table from the already-deleted row. -/
theorem c1_fts_sync_violated :
    (((store (store emptyDb "x" "T1" "hello" [] 0).1 "x" "T2" "bye" [] 1).1).storage_fts.filter
        (fun e => e.id == "x")).length = 2 ∧
    (((store (store emptyDb "x" "T1" "hello" [] 0).1 "x" "T2" "bye" [] 1).1).storage_fts.filter
        (fun e => e.id == "x" && e.title == "T1")).length = 1 ∧
    ((delete (store (store emptyDb "x" "T1" "hello" [] 0).1 "x" "T2" "bye" [] 1).1 "x").1).storage = [] ∧
    (((delete (store (store emptyDb "x" "T1" "hello" [] 0).1 "x" "T2" "bye" [] 1).1 "x").1).storage_fts.filter
        (fun e => e.id == "x")).length = 2 := by
  refine ⟨?_, ?_, ?_, ?_⟩ <;> decide

/-! ## Claim C5 -/

/-- Claim C5 (code-bug evaluation): with any non-empty tag filter,
`searchAdvanced` fails at SQL prepare time with "ambiguous column name:
tags" and returns no items at all — here even though the store holds an
item that matches the query and carries exactly the requested tag, so the
tag-intersection filtering the spec describes never happens. -/
theorem c5_tag_filter_inoperative :
    searchAdvanced (store emptyDb "x" "T" "a" ["a"] 0).1 "a" 10 (some ["a"]) none none =
      Except.error "ambiguous column name: tags" ∧
    (retrieve (store emptyDb "x" "T" "a" ["a"] 0).1 "x").map
      (fun r => (tagList r.tags).contains "a") = some true ∧
    search (store emptyDb "x" "T" "a" ["a"] 0).1 "a" 10 =
      Except.ok [⟨"x", "T", "a", "a", 0, 0⟩] := by
  refine ⟨rfl, by decide, rfl⟩

/-! ## Claim C9 -/

/-- Claim C9 counterexample: an empty id — the example of malformed input
the spec gives — passes `z.string()` validation, so the `store_item`
operation is not rejected (isError is false) and the state does change: a
row with the empty id is written and retrievable. -/
theorem c9_empty_id_accepted :
    (storeItemTool emptyDb ⟨some "", some "t", some "c", none⟩ 0).2 = false ∧
    (retrieve (storeItemTool emptyDb ⟨some "", some "t", some "c", none⟩ 0).1 "").map
      (fun r => r.title) = some "t" := by
  exact ⟨rfl, by decide⟩

/-- Claim C9 as amended: inputs that fail the declared schema (a missing
id, title or content field) are rejected before touching storage and
surfaced as an operation-level error with no state change; inputs that pass
the schema — an empty id included — are stored. -/
theorem c9_schema_validation (db : StorageDatabase) (a : RawStoreArgs)
    (now : Nat) :
    (parseStoreArgs a = none → storeItemTool db a now = (db, true)) ∧
    (∀ i t c tg, parseStoreArgs a = some (i, t, c, tg) →
      storeItemTool db a now = ((store db i t c (tg.getD []) now).1, false)) := by
  constructor
  · intro h
    simp [storeItemTool, h]
  · intro i t c tg h
    simp [storeItemTool, h]

/-- Witness for `c9_schema_validation` at concrete inputs: a request with a
missing id is rejected without state change, and a well-formed request is
stored. -/
theorem c9_schema_validation_witness :
    storeItemTool emptyDb ⟨none, some "t", some "c", none⟩ 0 = (emptyDb, true) ∧
    storeItemTool emptyDb ⟨some "a", some "t", some "c", none⟩ 0 =
      ((store emptyDb "a" "t" "c" ((none : Option (List String)).getD []) 0).1, false) :=
  ⟨(c9_schema_validation emptyDb ⟨none, some "t", some "c", none⟩ 0).1 rfl,
   (c9_schema_validation emptyDb ⟨some "a", some "t", some "c", none⟩ 0).2
     "a" "t" "c" none rfl⟩

/-! ## Claim C4 -/

/-- Claim C4 counterexample: after storing id `x` at time 0 the row carries
`created_at = 0`, yet re-storing `x` at time 1 returns a record whose
`created_at` is the literal current time 1 — not carried over from the
existing row as the claim states. -/
theorem c4_returned_value_counterexample :
    (retrieve (store emptyDb "x" "a" "b" [] 0).1 "x").map
      (fun r => r.created_at) = some 0 ∧
    (store (store emptyDb "x" "a" "b" [] 0).1 "x" "c" "d" [] 1).2.created_at = 1 ∧
    ¬ (store (store emptyDb "x" "a" "b" [] 0).1 "x" "c" "d" [] 1).2.created_at = 0 := by
  refine ⟨by decide, rfl, by decide⟩

/-- Claim C4 as amended: the record `store` returns always carries the
current time in both `created_at` and `updated_at`; it is the row written
to the table whose `created_at` is carried over from the existing row when
the id pre-exists, and set to the current time when it does not. -/
theorem c4_created_at_semantics (db : StorageDatabase) (id t c : String)
    (tags : List String) (now : Nat) :
    ((store db id t c tags now).2.created_at = now ∧
     (store db id t c tags now).2.updated_at = now) ∧
    (retrieve db id = none →
      retrieve (store db id t c tags now).1 id =
        some ⟨id, t, c, joinComma tags, now, now⟩) ∧
    (∀ r0, retrieve db id = some r0 →
      retrieve (store db id t c tags now).1 id =
        some ⟨id, t, c, joinComma tags, r0.created_at, now⟩) := by
  refine ⟨⟨rfl, rfl⟩, ?_, ?_⟩
  · intro h
    have := retrieve_upsert db id t c (joinComma tags) now
    rw [coalesceCreated_eq, h] at this
    exact this
  · intro r0 h
    have := retrieve_upsert db id t c (joinComma tags) now
    rw [coalesceCreated_eq, h] at this
    exact this

/-- Witness for `c4_created_at_semantics` at concrete inputs: a fresh store
writes both timestamps as the current time, and a re-store carries the
existing `created_at` over into the row. -/
theorem c4_created_at_semantics_witness :
    retrieve (store emptyDb "x" "a" "b" [] 0).1 "x" = some ⟨"x", "a", "b", "", 0, 0⟩ ∧
    retrieve (store (store emptyDb "x" "a" "b" [] 0).1 "x" "c" "d" [] 5).1 "x" =
      some ⟨"x", "c", "d", "", 0, 5⟩ :=
  ⟨(c4_created_at_semantics emptyDb "x" "a" "b" [] 0).2.1 rfl,
   (c4_created_at_semantics (store emptyDb "x" "a" "b" [] 0).1 "x" "c" "d" [] 5).2.2
     ⟨"x", "a", "b", "", 0, 0⟩ (by decide)⟩

/-! ## Claim C7 -/

/-- Claim C7: `delete` returns true exactly when a row with the id existed
at call time; deleting an absent id returns false, leaves the whole state
(table and index) unchanged, and a subsequent `retrieve` still reports
not-found.  The model is a total function, mirroring that the DELETE
statement raises no error on a missing id. -/
theorem c7_delete_reports_existence (db : StorageDatabase) (id : String) :
    ((delete db id).2 = true ↔ ∃ r, retrieve db id = some r) ∧
    (retrieve db id = none →
      (delete db id).1 = db ∧ retrieve (delete db id).1 id = none) := by
  constructor
  · show db.storage.any (fun p => p.2.id == id) = true ↔ _
    rw [List.any_eq_true]
    constructor
    · rintro ⟨p, hp, hid⟩
      have hs : (db.storage.find? (fun q => q.2.id == id)).isSome :=
        List.find?_isSome.mpr ⟨p, hp, hid⟩
      rcases Option.isSome_iff_exists.mp hs with ⟨q, hq⟩
      refine ⟨q.2, ?_⟩
      unfold retrieve
      rw [hq]
      rfl
    · rintro ⟨r, hr⟩
      unfold retrieve at hr
      have hs : (db.storage.find? (fun q => q.2.id == id)).isSome := by
        rcases Option.map_eq_some'.mp hr with ⟨q, hq, _⟩
        simp [hq]
      exact List.find?_isSome.mp hs
  · intro h
    have hnone : db.storage.find? (fun p => p.2.id == id) = none := by
      unfold retrieve at h
      exact Option.map_eq_none'.mp h
    have hall := List.find?_eq_none.mp hnone
    have hfilter : db.storage.filter (fun p => !(p.2.id == id)) = db.storage := by
      rw [List.filter_eq_self]
      intro p hp
      have hp2 := hall p hp
      simp only [Bool.not_eq_true] at hp2
      simp [hp2]
    have hany : db.storage.any (fun p => p.2.id == id) = false := by
      rw [List.any_eq_false]
      exact hall
    have hstate : (delete db id).1 = db := by
      unfold delete
      simp only [hany, hfilter]
      rfl
    refine ⟨hstate, ?_⟩
    rw [hstate]
    exact h

/-- Witness for `c7_delete_reports_existence`: deleting the never-stored id
`x` from the empty database reports false and changes nothing. -/
theorem c7_delete_witness :
    (delete emptyDb "x").1 = emptyDb ∧ retrieve (delete emptyDb "x").1 "x" = none :=
  (c7_delete_reports_existence emptyDb "x").2 rfl

/-! ## Claim C6 -/

/-- Claim C6: the batch write is all-or-nothing.  The only way an
individual item of a batch can fail is schema validation, which happens
before `storeBatch` runs: when any item is rejected the whole call reports
an error and the state is exactly the pre-call state, so no row or index
entry of any batch item is visible.  When every item is accepted, the batch
applies exactly the upsert of `store` for each item in order, all sharing
one timestamp. -/
theorem c6_batch_atomic (db : StorageDatabase) (raws : List RawStoreArgs)
    (now : Nat) :
    (parseBatchArgs raws = none → storeBatchTool db raws now = (db, true)) ∧
    (∀ items, parseBatchArgs raws = some items →
      (storeBatchTool db raws now).1 =
        items.foldl (fun acc it =>
          (store acc it.id it.title it.content (it.tags.getD []) now).1) db) := by
  constructor
  · intro h
    simp [storeBatchTool, h]
  · intro items h
    simp [storeBatchTool, h, storeBatch, store]

/-- Witness for `c6_batch_atomic` at concrete inputs: a batch whose second
item is missing its content field is rejected whole with no state change,
and a fully valid batch equals the fold of the individual upserts. -/
theorem c6_batch_atomic_witness :
    storeBatchTool emptyDb
      [⟨some "1", some "t", some "c", none⟩, ⟨some "2", some "u", none, none⟩] 0 =
      (emptyDb, true) ∧
    (storeBatchTool emptyDb
      [⟨some "1", some "t", some "c", none⟩, ⟨some "2", some "u", some "d", none⟩] 0).1 =
      [(⟨"1", "t", "c", none⟩ : BatchItem), ⟨"2", "u", "d", none⟩].foldl
        (fun acc it => (store acc it.id it.title it.content (it.tags.getD []) 0).1)
        emptyDb :=
  ⟨(c6_batch_atomic emptyDb
      [⟨some "1", some "t", some "c", none⟩, ⟨some "2", some "u", none, none⟩] 0).1 rfl,
   (c6_batch_atomic emptyDb
      [⟨some "1", some "t", some "c", none⟩, ⟨some "2", some "u", some "d", none⟩] 0).2
      [⟨"1", "t", "c", none⟩, ⟨"2", "u", "d", none⟩] rfl⟩

/-! ## Tag serialization round trip -/

/-- `splitChar` always yields at least one part. -/
theorem splitChar_ne_nil (sep : Char) (l : List Char) : splitChar sep l ≠ [] := by
  cases l with
  | nil => simp [splitChar]
  | cons c cs =>
    cases hs : splitChar sep cs with
    | nil => simp [splitChar, hs]
    | cons h t => by_cases hc : c = sep <;> simp [splitChar, hs, hc]

/-- Splitting a separator-free string yields the string as its only part. -/
theorem splitChar_no_sep (sep : Char) (l : List Char) (h : sep ∉ l) :
    splitChar sep l = [l] := by
  induction l with
  | nil => rfl
  | cons c cs ih =>
    have hc : c ≠ sep := fun hh => h (hh ▸ List.mem_cons_self c cs)
    have hcs : sep ∉ cs := fun hh => h (List.mem_cons_of_mem c hh)
    simp [splitChar, ih hcs, hc]

/-- Splitting peels off a separator-free prefix before a separator. -/
theorem splitChar_append_sep (sep : Char) (l1 l2 : List Char) (h : sep ∉ l1) :
    splitChar sep (l1 ++ sep :: l2) = l1 :: splitChar sep l2 := by
  induction l1 with
  | nil =>
    cases hs : splitChar sep l2 with
    | nil => exact absurd hs (splitChar_ne_nil sep l2)
    | cons a t => simp [splitChar, hs]
  | cons c cs ih =>
    have hc : c ≠ sep := fun hh => h (hh ▸ List.mem_cons_self c cs)
    have hcs : sep ∉ cs := fun hh => h (List.mem_cons_of_mem c hh)
    simpa [splitChar, hc] using congrArg (fun r => match r with
      | [] => ([[]] : List (List Char))
      | hd :: tl => (c :: hd) :: tl) (ih hcs)

/-- Decoding inverts encoding for tag lists whose tags are non-empty,
comma-free and stable under trimming. -/
theorem tagList_joinComma (tags : List String)
    (h : ∀ tg ∈ tags, tg ≠ "" ∧ ',' ∉ tg.data ∧ trimChars tg.data = tg.data) :
    tagList (joinComma tags) = tags := by
  induction tags with
  | nil => rfl
  | cons t ts ih =>
    rcases h t (List.mem_cons_self t ts) with ⟨hne, hnc, htr⟩
    have hts : ∀ tg ∈ ts, tg ≠ "" ∧ ',' ∉ tg.data ∧ trimChars tg.data = tg.data :=
      fun tg htg => h tg (List.mem_cons_of_mem t htg)
    cases ts with
    | nil =>
      show tagList t = [t]
      unfold tagList
      rw [splitChar_no_sep _ _ hnc]
      simp [htr, hne]
    | cons t2 ts2 =>
      have hrest := ih hts
      have hdata : (joinComma (t :: t2 :: ts2)).data =
          t.data ++ ',' :: (joinComma (t2 :: ts2)).data := by
        show (t ++ "," ++ joinComma (t2 :: ts2)).data = _
        simp [String.data_append]
      unfold tagList
      rw [hdata, splitChar_append_sep _ _ _ hnc]
      simp only [List.map_cons, List.filter_cons, htr]
      have hmk : String.mk t.data = t := rfl
      rw [hmk]
      have hbeq : (t != "") = true := by simpa using hne
      rw [hbeq]
      simp only [if_true]
      have htail : ((splitChar ',' (joinComma (t2 :: ts2)).data).map
          (fun l => String.mk (trimChars l))).filter (fun s => s != "") =
          tagList (joinComma (t2 :: ts2)) := rfl
      rw [htail, hrest]

/-! ## Claim C2 -/

/-- Claim C2 counterexample: storing a tag that itself contains a comma
breaks the round trip.  After `store` with the single tag "a,b", the
retrieved tag set is two tags a and b, and does not contain the tag "a,b"
that was stored, so the retrieved tag set differs from the stored one. -/
theorem c2_roundtrip_counterexample :
    (retrieve (store emptyDb "x" "t" "c" ["a,b"] 0).1 "x").map
      (fun r => tagList r.tags) = some ["a", "b"] ∧
    (retrieve (store emptyDb "x" "t" "c" ["a,b"] 0).1 "x").map
      (fun r => (tagList r.tags).contains "a,b") = some false := by
  exact ⟨by decide, by decide⟩

/-- Claim C2 as amended: for every tag list whose tags are non-empty,
comma-free and carry no leading or trailing whitespace, `retrieve` after
`store` returns an item with the stored title, the stored content, and
exactly the stored tag list (hence the same tag set). -/
theorem c2_store_retrieve_roundtrip (db : StorageDatabase) (id t c : String)
    (tags : List String) (now : Nat)
    (h : ∀ tg ∈ tags, tg ≠ "" ∧ ',' ∉ tg.data ∧ trimChars tg.data = tg.data) :
    (retrieve (store db id t c tags now).1 id).map
      (fun r => (r.title, r.content, tagList r.tags)) = some (t, c, tags) := by
  have hr : retrieve (store db id t c tags now).1 id =
      some ⟨id, t, c, joinComma tags, coalesceCreated db id now, now⟩ :=
    retrieve_upsert db id t c (joinComma tags) now
  rw [hr]
  simp [tagList_joinComma tags h]

/-- Witness for `c2_store_retrieve_roundtrip` at a concrete input. -/
theorem c2_store_retrieve_roundtrip_witness :
    (retrieve (store emptyDb "x" "T" "C" ["a", "b"] 0).1 "x").map
      (fun r => (r.title, r.content, tagList r.tags)) = some ("T", "C", ["a", "b"]) :=
  c2_store_retrieve_roundtrip emptyDb "x" "T" "C" ["a", "b"] 0 (by decide)

/-! ## Claim C3 -/

/-- Claim C3: storing a fresh id at one time and re-storing it at a later
time leaves a row whose `created_at` is the first time, whose `updated_at`
is the second time (hence not less than before), and whose title, content
and tag blob are the second store's values. -/
theorem c3_restore_preserves_created_at (db : StorageDatabase)
    (id ti1 c1 ti2 c2 : String) (tags1 tags2 : List String) (t1 t2 : Nat)
    (hfresh : retrieve db id = none) (_hle : t1 ≤ t2) :
    retrieve (store (store db id ti1 c1 tags1 t1).1 id ti2 c2 tags2 t2).1 id =
      some ⟨id, ti2, c2, joinComma tags2, t1, t2⟩ := by
  have h1 : retrieve (store db id ti1 c1 tags1 t1).1 id =
      some ⟨id, ti1, c1, joinComma tags1, t1, t1⟩ := by
    have hu := retrieve_upsert db id ti1 c1 (joinComma tags1) t1
    rw [coalesceCreated_eq, hfresh] at hu
    exact hu
  have h2 := retrieve_upsert (store db id ti1 c1 tags1 t1).1 id ti2 c2
    (joinComma tags2) t2
  rw [coalesceCreated_eq, h1] at h2
  exact h2

/-- Witness for `c3_restore_preserves_created_at`: id `x` stored at time 0
and re-stored at time 1 retrieves with `created_at` 0 and `updated_at` 1
and the second store's fields. -/
theorem c3_restore_witness :
    retrieve (store (store emptyDb "x" "a" "b" ["u"] 0).1 "x" "cc" "d" ["v"] 1).1 "x" =
      some ⟨"x", "cc", "d", "v", 0, 1⟩ :=
  c3_restore_preserves_created_at emptyDb "x" "a" "b" "cc" "d" ["u"] ["v"] 0 1 rfl
    (by decide)

/-! ## Claim C8 -/

/-- The Boolean comparison `ORDER BY updated_at DESC` sorts by is
transitive. -/
theorem descLe_trans (a b c : Nat × StoredItem)
    (hab : decide (b.2.updated_at ≤ a.2.updated_at) = true)
    (hbc : decide (c.2.updated_at ≤ b.2.updated_at) = true) :
    decide (c.2.updated_at ≤ a.2.updated_at) = true := by
  simp only [decide_eq_true_eq] at *
  omega

/-- The Boolean comparison `ORDER BY updated_at DESC` sorts by is total. -/
theorem descLe_total (a b : Nat × StoredItem) :
    (decide (b.2.updated_at ≤ a.2.updated_at) ||
      decide (a.2.updated_at ≤ b.2.updated_at)) = true := by
  simp only [Bool.or_eq_true, decide_eq_true_eq]
  omega

/-- Stability of the refined ordering: the rows carrying any fixed
`updated_at` value appear in the sorted output exactly in their table
(rowid) order. -/
theorem sortByUpdatedDesc_filter_key (l : List (Nat × StoredItem)) (k : Nat) :
    (sortByUpdatedDesc l).filter (fun p => p.2.updated_at == k) =
      l.filter (fun p => p.2.updated_at == k) := by
  have hpw : (l.filter (fun p => p.2.updated_at == k)).Pairwise
      (fun a b => decide (b.2.updated_at ≤ a.2.updated_at) = true) := by
    apply List.pairwise_of_forall_mem_list
    intro a ha b hb
    have ha2 := List.of_mem_filter ha
    have hb2 := List.of_mem_filter hb
    simp only [beq_iff_eq] at ha2 hb2
    simp [ha2, hb2]
  have h1 : List.Sublist (l.filter (fun p => p.2.updated_at == k))
      (sortByUpdatedDesc l) :=
    List.sublist_mergeSort descLe_trans descLe_total hpw (List.filter_sublist l)
  have hidem : (l.filter (fun p => p.2.updated_at == k)).filter
      (fun p => p.2.updated_at == k) = l.filter (fun p => p.2.updated_at == k) := by
    rw [List.filter_eq_self]
    intro p hp
    exact (List.mem_filter.mp hp).2
  have h2 : List.Sublist (l.filter (fun p => p.2.updated_at == k))
      ((sortByUpdatedDesc l).filter (fun p => p.2.updated_at == k)) := by
    have hf := h1.filter (fun p => p.2.updated_at == k)
    rwa [hidem] at hf
  have hperm : ((sortByUpdatedDesc l).filter (fun p => p.2.updated_at == k)).Perm
      (l.filter (fun p => p.2.updated_at == k)) :=
    (List.mergeSort_perm l _).filter _
  exact (h2.eq_of_length hperm.length_eq.symm).symm

/-- Claim C8: `list` returns at most `limit` items, in non-increasing
`updated_at` order; the full ordering it paginates is a permutation of the
table in which rows with equal `updated_at` keep their table (insertion)
order; and concretely, after storing item A at time 0 and item B at time 1,
`list 1 0` returns only B. -/
theorem c8_list_ordering (db : StorageDatabase) (limit offset : Nat) :
    (list db limit offset).length ≤ limit ∧
    (list db limit offset).Pairwise (fun a b => b.updated_at ≤ a.updated_at) ∧
    (sortByUpdatedDesc db.storage).Perm db.storage ∧
    (∀ k, (sortByUpdatedDesc db.storage).filter (fun p => p.2.updated_at == k) =
      db.storage.filter (fun p => p.2.updated_at == k)) ∧
    list (store (store emptyDb "A" "tA" "cA" [] 0).1 "B" "tB" "cB" [] 1).1 1 0 =
      [⟨"B", "tB", "cB", "", 1, 1⟩] := by
  refine ⟨?_, ?_, List.mergeSort_perm db.storage _,
    fun k => sortByUpdatedDesc_filter_key db.storage k, ?_⟩
  · simp [list, List.length_take]
  · have hs : (sortByUpdatedDesc db.storage).Pairwise
        (fun a b => decide (b.2.updated_at ≤ a.2.updated_at) = true) :=
      List.sorted_mergeSort descLe_trans descLe_total db.storage
    have hsub : List.Sublist (((sortByUpdatedDesc db.storage).drop offset).take limit)
        (sortByUpdatedDesc db.storage) :=
      (List.take_sublist _ _).trans (List.drop_sublist _ _)
    have hpage := hs.sublist hsub
    have hpage2 : (((sortByUpdatedDesc db.storage).drop offset).take limit).Pairwise
        (fun a b => b.2.updated_at ≤ a.2.updated_at) :=
      hpage.imp (fun hab => by simpa [decide_eq_true_eq] using hab)
    exact List.pairwise_map.mpr hpage2
  · show List.map (fun p => p.2) (List.take 1 (List.drop 0 (List.mergeSort
        [(1, (⟨"A", "tA", "cA", "", 0, 0⟩ : StoredItem)),
         (2, (⟨"B", "tB", "cB", "", 1, 1⟩ : StoredItem))]
        (fun a b => decide (b.2.updated_at ≤ a.2.updated_at))))) =
      [⟨"B", "tB", "cB", "", 1, 1⟩]
    simp [List.mergeSort, List.merge]
